import Mathlib

/-!
Verification of the CLV (Customer Lifetime Value) predictor app.

The application (`app.py`) validates manually entered customer records,
runs a batch prediction pipeline over a customer table, and enriches the
resulting table with segment labels, percentile ranks, confidence bands
and churn-risk scores.  This file gives a shallow embedding of that data
model and of the operations the specification talks about, and proves (or
refutes) the specified properties.

Modelling conventions:
* pandas tables become Lean lists of records;
* float arithmetic in the app (×0.8, ×1.2, division, percentage ranks)
  becomes exact rational arithmetic;
* pandas division by zero produces non-finite values (NaN/inf), never an
  exception; `Option ℚ` models that, `none` standing for a non-finite
  (undefined) result;
* exceptions raised by the external model object are modelled by
  `Except`-valued oracle parameters.
-/

/-- A customer record, one row of the input table.  Fields and their
types follow the columns built in `handle_manual_entry` (app.py
lines 168-178). -/
structure CustomerRecord where
  customer_id : String
  age : Int
  total_purchases : Int
  avg_order_value : ℚ
  days_since_first_purchase : Int
  days_since_last_purchase : Int
  acquisition_channel : String
  location : String
  subscription_status : String
deriving Repr, DecidableEq

/-- The validation failures `handle_manual_entry` can report (app.py
lines 143-162), one constructor per distinct error message. -/
inductive VError where
  | emptyId
  | duplicateId
  | ageOutOfRange
  | negativePurchases
  | nonpositiveAvgOrder
  | firstPurchaseTooSmall
  | negativeLastPurchase
  | lastAfterFirst
deriving Repr, DecidableEq

/-- The validation pass of `handle_manual_entry` (app.py lines 141-162):
each check appends its error to `validation_errors` in program order.
The duplicate check only runs when the id is non-blank, and compares the
stripped id against the ids already stored. -/
def validationErrors (existing : List CustomerRecord) (r : CustomerRecord) :
    List VError :=
  (if r.customer_id.trim = "" then [VError.emptyId]
   else if (existing.map (fun c => c.customer_id)).contains r.customer_id.trim then
     [VError.duplicateId]
   else [])
  ++ (if r.age < 18 ∨ 100 < r.age then [VError.ageOutOfRange] else [])
  ++ (if r.total_purchases < 0 then [VError.negativePurchases] else [])
  ++ (if r.avg_order_value ≤ 0 then [VError.nonpositiveAvgOrder] else [])
  ++ (if r.days_since_first_purchase < 1 then [VError.firstPurchaseTooSmall] else [])
  ++ (if r.days_since_last_purchase < 0 then [VError.negativeLastPurchase] else [])
  ++ (if r.days_since_first_purchase < r.days_since_last_purchase then
        [VError.lastAfterFirst] else [])

/-- The effect of submitting one record in `handle_manual_entry`
(app.py lines 164-187): when any validation error was collected the
stored table is untouched and every error is reported; otherwise the
record (with its id stripped) is appended. -/
def addManualCustomer (existing : List CustomerRecord) (r : CustomerRecord) :
    List CustomerRecord × List VError :=
  let errs := validationErrors existing r
  if errs = [] then
    (existing ++ [{ r with customer_id := r.customer_id.trim }], [])
  else
    (existing, errs)

/-- The ordered value tiers `segment_customers` assigns
("Low Value" < "Medium Value" < "High Value"). -/
inductive Segment where
  | low
  | medium
  | high
deriving Repr, DecidableEq

/-- Position of a segment in the ordering "Low Value" < "Medium Value" <
"High Value". -/
def Segment.pos : Segment → Nat
  | .low => 0
  | .medium => 1
  | .high => 2

/-- Modelled from the spec: `segment_customers` lives in `clv_model.py`,
which is not part of the repository files here; §4.6 of the spec says it
buckets a predicted value into the three tiers by the fixed thresholds
stored in the model artifact. -/
def segmentOfClv (tLow tHigh : ℚ) (v : ℚ) : Segment :=
  if v ≤ tLow then Segment.low
  else if v ≤ tHigh then Segment.medium
  else Segment.high

/-- `Series.max()` of pandas on a column of ints: the greatest element,
or `none` (pandas NaN) on an empty column. -/
def listMax : List Int → Option Int
  | [] => none
  | x :: xs => some (xs.foldl max x)

/-- Element-wise pandas division `days_since_last_purchase / max_days`
(app.py line 634): division by a zero or undefined denominator yields a
non-finite float (NaN or inf), modelled as `none`, not an exception. -/
def chRisk (maxDays : Option Int) (d : Int) : Option ℚ :=
  match maxDays with
  | none => none
  | some m => if m = 0 then none else some ((d : ℚ) / (m : ℚ))

/-- `Series.rank(pct=True)` of pandas with the default `average` method:
the average rank of `v` among `xs` — the number of strictly smaller
entries plus half of (ties + 1) — divided by the length of the column. -/
def rankPct (xs : List ℚ) (v : ℚ) : ℚ :=
  (((xs.filter (fun x => x < v)).length : ℚ)
      + (((xs.filter (fun x => x = v)).length : ℚ) + 1) / 2)
    / (xs.length : ℚ)

/-- One row of the enriched predictions table: every input column plus
exactly the six columns appended in app.py lines 618-636. -/
structure PredictionRow where
  base : CustomerRecord
  predicted_clv : ℚ
  customer_segment : Segment
  percentile_rank : ℚ
  confidence_lower : ℚ
  confidence_upper : ℚ
  churn_risk : Option ℚ
deriving Repr, DecidableEq

/-- The enrichment of one row (app.py lines 618-636): `raw` is the whole
`predicted_clv` column (the rank population), `maxDays` the batch maximum
of `days_since_last_purchase`, `v` this row's prediction and `s` its
segment. -/
def mkRow (maxDays : Option Int) (raw : List ℚ) (r : CustomerRecord)
    (v : ℚ) (s : Segment) : PredictionRow :=
  { base := r
    predicted_clv := v
    customer_segment := s
    percentile_rank := rankPct raw v * 100
    confidence_lower := v * 0.8
    confidence_upper := v * 1.2
    churn_risk := chRisk maxDays r.days_since_last_purchase }

/-- The enriched predictions table built from the input rows, the raw
prediction column and the segment column (app.py lines 616-636). -/
def buildRows (rows : List CustomerRecord) (raw : List ℚ)
    (segs : List Segment) : List PredictionRow :=
  let maxDays := listMax (rows.map (fun c => c.days_since_last_purchase))
  (rows.zip (raw.zip segs)).map (fun p => mkRow maxDays raw p.1 p.2.1 p.2.2)

/-- The slice of Streamlit session state the prediction block touches:
`st.session_state.predictions`. -/
structure AppState where
  predictions : Option (List PredictionRow)
deriving Repr, DecidableEq

/-- The customer table handed to the prediction block:
`hasCustomerIdCol` records whether the uploaded table has a
`customer_id` column (the check at app.py line 608), `rows` its rows. -/
structure InputData where
  hasCustomerIdCol : Bool
  rows : List CustomerRecord
deriving Repr, DecidableEq

/-- The error message of app.py line 642, shown when the input table has
no customer id column. -/
def invalidDataMsg : String :=
  "Invalid customer data format. Please check your input data."

/-- The prediction block of `main` (app.py lines 604-644).  The external
model steps — `create_advanced_features`, `prepare_features_for_prediction`,
`predict_clv` and `segment_customers` — are one oracle `pipe` that either
raises (`Except.error`, caught at line 643) or returns the raw prediction
column and the segment column.  Returns the new session state and the
error message reported, if any. -/
def runPrediction
    (pipe : List CustomerRecord → Except String (List ℚ × List Segment))
    (st : AppState) (input : InputData) : AppState × Option String :=
  if input.hasCustomerIdCol then
    match pipe input.rows with
    | Except.error e => (st, some e)
    | Except.ok (raw, segs) =>
        ({ predictions := some (buildRows input.rows raw segs) }, none)
  else
    (st, some invalidDataMsg)

/-- Modelled from the spec: the artifact format version tag §6 requires
(`clv_model.py`, which holds the Persistor, is not among the repository
files here). -/
def artifactFormatVersion : Nat := 1

/-- Modelled from the spec: the fitted state §3 and §6 describe — a
regression model (weights and intercept over the frozen feature order)
and the frozen segment thresholds, stamped with a format version.
`clv_model.py` is not among the repository files here. -/
structure ModelArtifact where
  formatVersion : Nat
  weights : List ℚ
  intercept : ℚ
  thresholdLow : ℚ
  thresholdHigh : ℚ
deriving Repr, DecidableEq

/-- Modelled from the spec: `save_model` (§4.4) serializes the artifact
to a single flat blob — version tag, thresholds, intercept, then the
length-prefixed weight vector. -/
def save_model (a : ModelArtifact) : List ℚ :=
  (a.formatVersion : ℚ) :: a.thresholdLow :: a.thresholdHigh :: a.intercept
    :: (a.weights.length : ℚ) :: a.weights

/-- Modelled from the spec: `load_model` (§4.4) parses the blob back,
failing explicitly on an incompatible format version or a malformed
payload. -/
def load_model (blob : List ℚ) : Option ModelArtifact :=
  match blob with
  | v :: t1 :: t2 :: b :: n :: ws =>
      if v = (artifactFormatVersion : ℚ) ∧ n = (ws.length : ℚ) then
        some { formatVersion := artifactFormatVersion, weights := ws,
               intercept := b, thresholdLow := t1, thresholdHigh := t2 }
      else none
  | _ => none

/-- Dot product of a weight vector with a feature vector. -/
def dotProd : List ℚ → List ℚ → ℚ
  | [], _ => 0
  | _, [] => 0
  | w :: ws, x :: xs => w * x + dotProd ws xs

/-- Modelled from the spec: `predict_clv` (§4.5) — deterministic
regression inference from the fitted artifact, clamped to the
non-negative floats §3 requires of `predicted_clv`. -/
def predict_clv (a : ModelArtifact) (x : List ℚ) : ℚ :=
  max 0 (dotProd a.weights x + a.intercept)

/-- The sample customer of the spec §8 concrete scenario. -/
def sampleCustomer : CustomerRecord :=
  { customer_id := "CUST_0001"
    age := 35
    total_purchases := 10
    avg_order_value := 50
    days_since_first_purchase := 200
    days_since_last_purchase := 20
    acquisition_channel := "Online"
    location := "Urban"
    subscription_status := "Active" }

/-- A customer whose recency is zero, for the degenerate all-zero batch. -/
def zeroRecencyCustomer : CustomerRecord :=
  { sampleCustomer with customer_id := "CUST_0002", days_since_last_purchase := 0 }

/-- A record violating five validation constraints at once. -/
def invalidCustomer : CustomerRecord :=
  { customer_id := "CUST_BAD"
    age := 10
    total_purchases := -1
    avg_order_value := 0
    days_since_first_purchase := 0
    days_since_last_purchase := 5
    acquisition_channel := "Online"
    location := "Urban"
    subscription_status := "Active" }

/-- The start value is below a `foldl max`. -/
theorem le_foldl_max (l : List Int) (a : Int) : a ≤ l.foldl max a := by
  induction l generalizing a with
  | nil => exact le_refl a
  | cons x xs ih => exact le_trans (le_max_left a x) (ih (max a x))

/-- Every element is below a `foldl max` over it. -/
theorem mem_le_foldl_max {x : Int} : ∀ (l : List Int), x ∈ l → ∀ (a : Int),
    x ≤ l.foldl max a
  | y :: ys, hx, a => by
    rcases List.mem_cons.1 hx with h | h
    · subst h
      exact le_trans (le_max_right a x) (le_foldl_max ys (max a x))
    · exact mem_le_foldl_max ys h (max a y)

/-- `listMax` bounds every element of the list. -/
theorem le_of_listMax {l : List Int} {m : Int} (hm : listMax l = some m)
    {x : Int} (hx : x ∈ l) : x ≤ m := by
  cases l with
  | nil => cases hx
  | cons y ys =>
      simp only [listMax, Option.some.injEq] at hm
      subst hm
      rcases List.mem_cons.1 hx with h | h
      · subst h
        exact le_foldl_max ys x
      · exact mem_le_foldl_max ys h y

/-- `foldl max` over an all-zero list starting from zero stays zero. -/
theorem foldl_max_zeros : ∀ (l : List Int), (∀ x ∈ l, x = 0) →
    l.foldl max 0 = 0
  | [], _ => rfl
  | z :: zs, hz => by
      have h0 : z = 0 := hz z (List.mem_cons_self z zs)
      subst h0
      simp only [List.foldl_cons, max_self]
      exact foldl_max_zeros zs (fun x hx => hz x (List.mem_cons_of_mem _ hx))

/-- `listMax` of a non-empty all-zero list is zero. -/
theorem listMax_all_zero {l : List Int} (hne : l ≠ [])
    (hz : ∀ x ∈ l, x = 0) : listMax l = some 0 := by
  cases l with
  | nil => exact absurd rfl hne
  | cons y ys =>
      have hy : y = 0 := hz y (List.mem_cons_self y ys)
      subst hy
      simp only [listMax, Option.some.injEq]
      exact foldl_max_zeros ys (fun x hx => hz x (List.mem_cons_of_mem _ hx))

/-- Decomposing membership in the enriched table: each output row is the
enrichment of an input row paired with its prediction and segment. -/
theorem mem_buildRows {rows : List CustomerRecord} {raw : List ℚ}
    {segs : List Segment} {row : PredictionRow}
    (h : row ∈ buildRows rows raw segs) :
    ∃ r v s, r ∈ rows ∧ v ∈ raw ∧
      row = mkRow (listMax (rows.map (fun c => c.days_since_last_purchase)))
        raw r v s := by
  simp only [buildRows, List.mem_map] at h
  obtain ⟨⟨r, v, s⟩, hmem, rfl⟩ := h
  have h1 := List.of_mem_zip hmem
  have h2 := List.of_mem_zip h1.2
  exact ⟨r, v, s, h1.1, h2.1, rfl⟩

/-- Strictly-smaller entries and ties of `v` are disjoint subsets of the
column, so their counts sum to at most its length. -/
theorem countLt_add_countEq_le (xs : List ℚ) (v : ℚ) :
    (xs.filter (fun x => x < v)).length + (xs.filter (fun x => x = v)).length
      ≤ xs.length := by
  induction xs with
  | nil => simp
  | cons a l ih =>
      rcases lt_trichotomy a v with h | h | h
      · have h2 : ¬(a = v) := fun he => absurd h (he ▸ lt_irrefl v)
        simp [List.filter_cons, h, h2]
        omega
      · have h1 : ¬(a < v) := by rw [h]; exact lt_irrefl v
        simp [List.filter_cons, h, h1]
        omega
      · have h1 : ¬(a < v) := not_lt_of_gt h
        have h2 : ¬(a = v) := fun he => absurd h (he ▸ lt_irrefl v)
        simp [List.filter_cons, h1, h2]
        omega

/-- C1: in every enriched row the confidence band is `0.8 ×` and `1.2 ×`
the predicted CLV, and (the predictions being non-negative, §4.5) the
band brackets the prediction: `confidence_lower ≤ predicted_clv ≤
confidence_upper`. -/
theorem confidence_band_brackets_clv (rows : List CustomerRecord)
    (raw : List ℚ) (segs : List Segment) (row : PredictionRow)
    (hrow : row ∈ buildRows rows raw segs)
    (hnn : ∀ v ∈ raw, 0 ≤ v) :
    row.confidence_lower = 0.8 * row.predicted_clv ∧
    row.confidence_upper = 1.2 * row.predicted_clv ∧
    row.confidence_lower ≤ row.predicted_clv ∧
    row.predicted_clv ≤ row.confidence_upper := by
  obtain ⟨r, v, s, hr, hv, rfl⟩ := mem_buildRows hrow
  have hv0 : (0 : ℚ) ≤ v := hnn v hv
  refine ⟨mul_comm v 0.8, mul_comm v 1.2, ?_, ?_⟩
  · show v * 0.8 ≤ v
    linarith
  · show v ≤ v * 1.2
    linarith

/-- C1 witness: the band of the §8 sample customer, predicted at 100,
is `[80, 120]` and brackets 100. -/
theorem confidence_band_brackets_clv_witness :
    (mkRow (some 20) [100] sampleCustomer 100 Segment.low).confidence_lower
        = 0.8 * (mkRow (some 20) [100] sampleCustomer 100 Segment.low).predicted_clv ∧
    (mkRow (some 20) [100] sampleCustomer 100 Segment.low).confidence_upper
        = 1.2 * (mkRow (some 20) [100] sampleCustomer 100 Segment.low).predicted_clv ∧
    (mkRow (some 20) [100] sampleCustomer 100 Segment.low).confidence_lower
        ≤ (mkRow (some 20) [100] sampleCustomer 100 Segment.low).predicted_clv ∧
    (mkRow (some 20) [100] sampleCustomer 100 Segment.low).predicted_clv
        ≤ (mkRow (some 20) [100] sampleCustomer 100 Segment.low).confidence_upper :=
  confidence_band_brackets_clv [sampleCustomer] [100] [Segment.low] _
    (List.Mem.head _) (by decide)

/-- C2 counterexample: a one-row batch whose only
`days_since_last_purchase` is zero gets churn risk `none` — the
modelled pandas NaN of `0 / 0` — not a defined default such as `0` or
`0.5`. -/
theorem allZero_recency_churn_undefined_cex :
    (buildRows [zeroRecencyCustomer] [100] [Segment.low]).map
        (fun r => r.churn_risk) = [none] ∧
    ¬ ((buildRows [zeroRecencyCustomer] [100] [Segment.low]).map
        (fun r => r.churn_risk) = [some 0]) ∧
    ¬ ((buildRows [zeroRecencyCustomer] [100] [Segment.low]).map
        (fun r => r.churn_risk) = [some 0.5]) := by
  decide

/-- C2 amended: a non-empty batch whose recency values are all zero
yields churn risk NaN (`none`) on every row — the computation completes
without raising a division-by-zero error, but produces an undefined
value, not a defined default. -/
theorem allZero_recency_churn_nan (rows : List CustomerRecord)
    (raw : List ℚ) (segs : List Segment)
    (hne : rows ≠ [])
    (hz : ∀ c ∈ rows, c.days_since_last_purchase = 0)
    (row : PredictionRow) (hrow : row ∈ buildRows rows raw segs) :
    row.churn_risk = none := by
  obtain ⟨r, v, s, hr, hv, rfl⟩ := mem_buildRows hrow
  have hmax : listMax (rows.map (fun c => c.days_since_last_purchase))
      = some 0 := by
    apply listMax_all_zero
    · simp only [ne_eq, List.map_eq_nil_iff]
      exact hne
    · intro x hx
      simp only [List.mem_map] at hx
      obtain ⟨c, hc, rfl⟩ := hx
      exact hz c hc
  show chRisk (listMax (rows.map (fun c => c.days_since_last_purchase)))
      r.days_since_last_purchase = none
  rw [hmax]
  simp [chRisk]

/-- C2 amended witness: the degenerate one-row batch, churn risk NaN. -/
theorem allZero_recency_churn_nan_witness :
    (mkRow (some 0) [100] zeroRecencyCustomer 100 Segment.low).churn_risk
      = none :=
  allZero_recency_churn_nan [zeroRecencyCustomer] [100] [Segment.low]
    (by decide) (by decide) _ (List.Mem.head _)

/-- C3: when the recency column has only non-negative values and the
batch maximum recency is positive, every row's churn risk is the defined
quotient `days_since_last_purchase / max` and lies in `[0, 1]`. -/
theorem churn_risk_bounds (rows : List CustomerRecord) (raw : List ℚ)
    (segs : List Segment) (m : Int)
    (hm : listMax (rows.map (fun c => c.days_since_last_purchase)) = some m)
    (hmpos : 0 < m)
    (hnn : ∀ c ∈ rows, 0 ≤ c.days_since_last_purchase)
    (row : PredictionRow) (hrow : row ∈ buildRows rows raw segs) :
    ∃ q, row.churn_risk = some q ∧ 0 ≤ q ∧ q ≤ 1 := by
  obtain ⟨r, v, s, hr, hv, rfl⟩ := mem_buildRows hrow
  have hd0 : (0 : Int) ≤ r.days_since_last_purchase := hnn r hr
  have hdm : r.days_since_last_purchase ≤ m :=
    le_of_listMax hm (List.mem_map_of_mem _ hr)
  have hm0 : m ≠ 0 := by omega
  refine ⟨(r.days_since_last_purchase : ℚ) / (m : ℚ), ?_, ?_, ?_⟩
  · show chRisk (listMax (rows.map (fun c => c.days_since_last_purchase)))
        r.days_since_last_purchase = _
    rw [hm]
    simp [chRisk, hm0]
  · apply div_nonneg
    · exact_mod_cast hd0
    · exact_mod_cast hmpos.le
  · rw [div_le_one (by exact_mod_cast hmpos)]
    exact_mod_cast hdm

/-- C3 witness: the §8 sample customer alone in the batch, churn risk
`20 / 20 = 1 ∈ [0, 1]`. -/
theorem churn_risk_bounds_witness :
    ∃ q, (mkRow (some 20) [100] sampleCustomer 100 Segment.low).churn_risk
        = some q ∧ 0 ≤ q ∧ q ≤ 1 :=
  churn_risk_bounds [sampleCustomer] [100] [Segment.low] 20
    (by decide) (by decide) (by decide) _ (List.Mem.head _)

/-- C4: every row of a (necessarily non-empty) enriched batch has
`percentile_rank = rank(pct=True) × 100` within `[0, 100]`. -/
theorem percentile_rank_bounds (rows : List CustomerRecord)
    (raw : List ℚ) (segs : List Segment) (row : PredictionRow)
    (hrow : row ∈ buildRows rows raw segs) :
    0 ≤ row.percentile_rank ∧ row.percentile_rank ≤ 100 := by
  obtain ⟨r, v, s, hr, hv, rfl⟩ := mem_buildRows hrow
  show 0 ≤ rankPct raw v * 100 ∧ rankPct raw v * 100 ≤ 100
  have hn : 0 < raw.length := List.length_pos.2 (List.ne_nil_of_mem hv)
  have hnq : (0 : ℚ) < (raw.length : ℚ) := by exact_mod_cast hn
  have hce : 1 ≤ (raw.filter (fun x => x = v)).length := by
    have hmem : v ∈ raw.filter (fun x => x = v) :=
      List.mem_filter.2 ⟨hv, by simp⟩
    exact List.length_pos.2 (List.ne_nil_of_mem hmem)
  have hsum : (raw.filter (fun x => x < v)).length
      + (raw.filter (fun x => x = v)).length ≤ raw.length :=
    countLt_add_countEq_le raw v
  have hlo : 0 ≤ rankPct raw v := by
    unfold rankPct
    positivity
  have hhi : rankPct raw v ≤ 1 := by
    unfold rankPct
    rw [div_le_one hnq]
    have h1 : ((raw.filter (fun x => x < v)).length : ℚ)
        + ((raw.filter (fun x => x = v)).length : ℚ) ≤ (raw.length : ℚ) := by
      exact_mod_cast hsum
    have h2 : (1 : ℚ) ≤ ((raw.filter (fun x => x = v)).length : ℚ) := by
      exact_mod_cast hce
    linarith
  constructor
  · linarith
  · linarith

/-- C4 witness: the sole row of a singleton batch ranks at the 100th
percentile, inside `[0, 100]`. -/
theorem percentile_rank_bounds_witness :
    0 ≤ (mkRow (some 20) [100] sampleCustomer 100 Segment.low).percentile_rank ∧
    (mkRow (some 20) [100] sampleCustomer 100 Segment.low).percentile_rank ≤ 100 :=
  percentile_rank_bounds [sampleCustomer] [100] [Segment.low] _ (List.Mem.head _)

/-- C5: when the input table has no `customer_id` column the prediction
block reports the invalid-format error, leaves the stored predictions
untouched, and runs none of the model pipeline — the outcome does not
depend on the pipeline oracle at all. -/
theorem missing_customer_id_no_pipeline
    (pipe pipe2 : List CustomerRecord → Except String (List ℚ × List Segment))
    (st : AppState) (input : InputData)
    (hcol : input.hasCustomerIdCol = false) :
    runPrediction pipe st input = (st, some invalidDataMsg) ∧
    runPrediction pipe st input = runPrediction pipe2 st input := by
  unfold runPrediction
  rw [hcol]
  simp

/-- C5 witness: a table without the id column, against a pipeline that
would raise and one that would succeed: same error, stored predictions
kept. -/
theorem missing_customer_id_no_pipeline_witness :
    runPrediction (fun _ => Except.error "boom")
        { predictions := some [] } { hasCustomerIdCol := false, rows := [sampleCustomer] }
      = ({ predictions := some [] }, some invalidDataMsg) ∧
    runPrediction (fun _ => Except.error "boom")
        { predictions := some [] } { hasCustomerIdCol := false, rows := [sampleCustomer] }
      = runPrediction (fun _ => Except.ok ([100], [Segment.low]))
          { predictions := some [] } { hasCustomerIdCol := false, rows := [sampleCustomer] } :=
  missing_customer_id_no_pipeline _ _ _ _ rfl

/-- C6: manual-entry validation reports every violated constraint — each
violated check contributes its error to the collected list — and when
any error was collected the customer table is left unchanged with all
errors reported. -/
theorem manual_entry_collects_all_errors (existing : List CustomerRecord)
    (r : CustomerRecord) :
    (r.customer_id.trim = "" → VError.emptyId ∈ validationErrors existing r) ∧
    (r.customer_id.trim ≠ "" →
      (existing.map (fun c => c.customer_id)).contains r.customer_id.trim = true →
      VError.duplicateId ∈ validationErrors existing r) ∧
    (r.age < 18 ∨ 100 < r.age → VError.ageOutOfRange ∈ validationErrors existing r) ∧
    (r.total_purchases < 0 → VError.negativePurchases ∈ validationErrors existing r) ∧
    (r.avg_order_value ≤ 0 → VError.nonpositiveAvgOrder ∈ validationErrors existing r) ∧
    (r.days_since_first_purchase < 1 →
      VError.firstPurchaseTooSmall ∈ validationErrors existing r) ∧
    (r.days_since_last_purchase < 0 →
      VError.negativeLastPurchase ∈ validationErrors existing r) ∧
    (r.days_since_first_purchase < r.days_since_last_purchase →
      VError.lastAfterFirst ∈ validationErrors existing r) ∧
    (validationErrors existing r ≠ [] →
      addManualCustomer existing r = (existing, validationErrors existing r)) := by
  refine ⟨?_, ?_, ?_, ?_, ?_, ?_, ?_, ?_, ?_⟩
  · intro h
    simp [validationErrors, h]
  · intro h1 h2
    simp only [validationErrors, List.mem_append]
    refine Or.inl (Or.inl (Or.inl (Or.inl (Or.inl (Or.inl ?_)))))
    rw [if_neg h1, if_pos h2]
    exact List.Mem.head _
  · intro h
    simp [validationErrors, h]
  · intro h
    simp [validationErrors, h]
  · intro h
    simp [validationErrors, h]
  · intro h
    simp [validationErrors, h]
  · intro h
    simp [validationErrors, h]
  · intro h
    simp [validationErrors, h]
  · intro h
    simp only [addManualCustomer]
    rw [if_neg h]

/-- C6 witness: a record violating five constraints at once gets all
five errors reported and is not added. -/
theorem manual_entry_collects_all_errors_witness :
    VError.ageOutOfRange ∈ validationErrors [] invalidCustomer ∧
    VError.negativePurchases ∈ validationErrors [] invalidCustomer ∧
    VError.nonpositiveAvgOrder ∈ validationErrors [] invalidCustomer ∧
    VError.firstPurchaseTooSmall ∈ validationErrors [] invalidCustomer ∧
    VError.lastAfterFirst ∈ validationErrors [] invalidCustomer ∧
    addManualCustomer [] invalidCustomer = ([], validationErrors [] invalidCustomer) := by
  have h := manual_entry_collects_all_errors [] invalidCustomer
  have hage : VError.ageOutOfRange ∈ validationErrors [] invalidCustomer :=
    h.2.2.1 (by decide)
  exact ⟨hage, h.2.2.2.1 (by decide), h.2.2.2.2.1 (by decide),
    h.2.2.2.2.2.1 (by decide), h.2.2.2.2.2.2.2.1 (by decide),
    h.2.2.2.2.2.2.2.2 (List.ne_nil_of_mem hage)⟩

/-- The enriched table keeps the input rows — values and order — in its
`base` columns. -/
theorem buildRows_map_base (rows : List CustomerRecord) (raw : List ℚ)
    (segs : List Segment) (h1 : rows.length ≤ raw.length)
    (h2 : rows.length ≤ segs.length) :
    (buildRows rows raw segs).map PredictionRow.base = rows := by
  unfold buildRows
  rw [List.map_map]
  have hfun : (PredictionRow.base ∘ fun p : CustomerRecord × ℚ × Segment =>
      mkRow (listMax (rows.map (fun c => c.days_since_last_purchase)))
        raw p.1 p.2.1 p.2.2) = Prod.fst := rfl
  rw [hfun]
  apply List.map_fst_zip
  rw [List.length_zip]
  omega

/-- C7: on a successful run the stored output table is the input table
with the six prediction columns appended: each output row keeps its
input row (`base`) unchanged, in the original order. -/
theorem output_table_preserves_input
    (pipe : List CustomerRecord → Except String (List ℚ × List Segment))
    (st : AppState) (input : InputData)
    (raw : List ℚ) (segs : List Segment)
    (hcol : input.hasCustomerIdCol = true)
    (hp : pipe input.rows = Except.ok (raw, segs))
    (h1 : input.rows.length ≤ raw.length)
    (h2 : input.rows.length ≤ segs.length) :
    (runPrediction pipe st input).1.predictions
        = some (buildRows input.rows raw segs) ∧
    (buildRows input.rows raw segs).map PredictionRow.base = input.rows := by
  constructor
  · unfold runPrediction
    rw [hcol, if_pos rfl, hp]
  · exact buildRows_map_base input.rows raw segs h1 h2

/-- C7 witness: a one-customer table run through a concrete pipeline;
the stored table is its enrichment and the base column is the input. -/
theorem output_table_preserves_input_witness :
    (runPrediction (fun _ => Except.ok ([100], [Segment.low]))
        { predictions := none }
        { hasCustomerIdCol := true, rows := [sampleCustomer] }).1.predictions
      = some (buildRows [sampleCustomer] [100] [Segment.low]) ∧
    (buildRows [sampleCustomer] [100] [Segment.low]).map PredictionRow.base
      = [sampleCustomer] :=
  output_table_preserves_input _ _ _ _ _ rfl rfl (by decide) (by decide)

/-- C8: segmentation by the fixed thresholds is monotone in the
predicted value: `a ≤ b` never maps `a` to a higher tier than `b` in
the ordering "Low Value" < "Medium Value" < "High Value". -/
theorem segmentation_monotone (tLow tHigh a b : ℚ) (hab : a ≤ b) :
    (segmentOfClv tLow tHigh a).pos ≤ (segmentOfClv tLow tHigh b).pos := by
  unfold segmentOfClv
  by_cases hA1 : a ≤ tLow
  · rw [if_pos hA1]
    split_ifs <;> simp [Segment.pos]
  · have hB1 : ¬ b ≤ tLow := fun h => hA1 (le_trans hab h)
    rw [if_neg hA1, if_neg hB1]
    by_cases hA2 : a ≤ tHigh
    · rw [if_pos hA2]
      split_ifs <;> simp [Segment.pos]
    · have hB2 : ¬ b ≤ tHigh := fun h => hA2 (le_trans hab h)
      rw [if_neg hA2, if_neg hB2]

/-- C8 witness: the §8 scenario — predictions 100 and 500 against
thresholds 200 and 400 receive non-decreasing segments. -/
theorem segmentation_monotone_witness :
    (segmentOfClv 200 400 100).pos ≤ (segmentOfClv 200 400 500).pos :=
  segmentation_monotone 200 400 100 500 (by norm_num)

/-- A sample fitted artifact at the current format version. -/
def sampleArtifact : ModelArtifact :=
  { formatVersion := artifactFormatVersion
    weights := [2, 3]
    intercept := 5
    thresholdLow := 10
    thresholdHigh := 20 }

/-- C9: saving an artifact at the current format version and loading it
back restores it exactly, so the restored model's predictions on any
fixed dataset are identical to the original's. -/
theorem save_load_roundtrip_predictions (a : ModelArtifact)
    (hv : a.formatVersion = artifactFormatVersion)
    (data : List (List ℚ)) :
    load_model (save_model a) = some a ∧
    (load_model (save_model a)).map (fun b => data.map (predict_clv b))
      = some (data.map (predict_clv a)) := by
  have hload : load_model (save_model a) = some a := by
    obtain ⟨v, ws, b, t1, t2⟩ := a
    simp only at hv
    subst hv
    simp [save_model, load_model]
  exact ⟨hload, by rw [hload]; rfl⟩

/-- C9 witness: the sample artifact round-trips and reproduces its
prediction on a concrete feature matrix. -/
theorem save_load_roundtrip_predictions_witness :
    load_model (save_model sampleArtifact) = some sampleArtifact ∧
    (load_model (save_model sampleArtifact)).map
        (fun b => [[(1 : ℚ), 2]].map (predict_clv b))
      = some ([[(1 : ℚ), 2]].map (predict_clv sampleArtifact)) :=
  save_load_roundtrip_predictions sampleArtifact rfl [[1, 2]]

/-- C10: the prediction step is atomic for the stored predictions:
whenever any error is reported — the pipeline raised, or the id column
is missing — the stored state is exactly what it was; the stored
predictions are replaced precisely when every step succeeded. -/
theorem prediction_step_atomic
    (pipe : List CustomerRecord → Except String (List ℚ × List Segment))
    (st : AppState) (input : InputData) :
    ((runPrediction pipe st input).2.isSome = true →
      (runPrediction pipe st input).1 = st) ∧
    ((runPrediction pipe st input).2 = none →
      ∃ raw segs, pipe input.rows = Except.ok (raw, segs) ∧
        (runPrediction pipe st input).1.predictions
          = some (buildRows input.rows raw segs)) := by
  unfold runPrediction
  by_cases hc : input.hasCustomerIdCol
  · rw [if_pos hc]
    cases hp : pipe input.rows with
    | error e => simp
    | ok p =>
        obtain ⟨raw, segs⟩ := p
        refine ⟨fun h => by simp at h, fun _ => ⟨raw, segs, rfl, rfl⟩⟩
  · rw [if_neg hc]
    exact ⟨fun _ => rfl, fun h => by simp at h⟩

/-- C10 witness: a raising pipeline leaves previously stored predictions
exactly as they were. -/
theorem prediction_step_atomic_witness :
    (runPrediction (fun _ => Except.error "boom")
        { predictions := some [] }
        { hasCustomerIdCol := true, rows := [sampleCustomer] }).1
      = { predictions := some [] } :=
  (prediction_step_atomic (fun _ => Except.error "boom")
      { predictions := some [] }
      { hasCustomerIdCol := true, rows := [sampleCustomer] }).1 rfl
